import Mathlib

/-
  Verification of the phantom-server configuration and lifecycle subsystems.

  Shallow embedding of the Go sources:
    * internal/config/config.go  (Config, ServerConfig, GetDefaultConfig,
      LoadConfig, LoadEnvConfig, MergeConfigs)
    * main.go                    (loadConfiguration, startServerWithGracefulShutdown, main)

  Go machine integers (int, 64-bit) are modelled as Int; slices as List;
  nil pointers as Option; functions returning (T, error) as Except String T.
-/

namespace PhantomServer

/-- Go struct ServerConfig (config.go). Field-for-field translation; the three
timeout fields and AllowedMethods carry no json tag in the source. -/
structure ServerConfig where
  Port : Int
  ShutdownTimeout : Int
  ReadTimeout : Int
  WriteTimeout : Int
  AllowedOrigins : List String
  AllowedMethods : List String
  EnableLogging : Bool
deriving DecidableEq, Repr

/-- Go struct Config (config.go): one ServerConfig under the json key "server". -/
structure Config where
  Server : ServerConfig
deriving DecidableEq, Repr

/-- GetDefaultConfig from config.go. -/
def GetDefaultConfig : Config :=
  { Server :=
    { Port := 8080
      ShutdownTimeout := 30
      ReadTimeout := 10
      WriteTimeout := 10
      AllowedOrigins := ["*"]
      AllowedMethods := ["GET", "POST", "PUT", "DELETE", "OPTIONS"]
      EnableLogging := true } }

/-- MergeConfigs from config.go. Go passes nullable pointers, modelled as
Option Config. The source builds the result from base field by field, then
overwrites Port when override.Server.Port is non-zero, AllowedOrigins when the
override slice is non-empty, and EnableLogging unconditionally; the three
timeouts and AllowedMethods always keep the base values. Go slice copies are
value copies, so the copy calls of the source are the list values themselves. -/
def MergeConfigs (b o : Option Config) : Config :=
  let base := match b with
    | none => GetDefaultConfig
    | some x => x
  match o with
  | none => base
  | some override =>
    { Server :=
      { Port := if override.Server.Port ≠ 0 then override.Server.Port else base.Server.Port
        ShutdownTimeout := base.Server.ShutdownTimeout
        ReadTimeout := base.Server.ReadTimeout
        WriteTimeout := base.Server.WriteTimeout
        AllowedOrigins := if override.Server.AllowedOrigins.length > 0 then
            override.Server.AllowedOrigins else base.Server.AllowedOrigins
        AllowedMethods := base.Server.AllowedMethods
        EnableLogging := override.Server.EnableLogging } }

/-- A Config whose fields are all Go zero values, as produced by
unmarshalling an empty document into a fresh Config variable. -/
def zeroValueConfig : Config :=
  { Server :=
    { Port := 0
      ShutdownTimeout := 0
      ReadTimeout := 0
      WriteTimeout := 0
      AllowedOrigins := []
      AllowedMethods := []
      EnableLogging := false } }

/-- Sample override with only Port set, as a file config giving just a port. -/
def overridePort3000 : Config :=
  { zeroValueConfig with Server := { zeroValueConfig.Server with Port := 3000 } }

/-- Sample override with only AllowedOrigins set. -/
def overrideOrigins : Config :=
  { zeroValueConfig with Server :=
    { zeroValueConfig.Server with AllowedOrigins := ["http://a.com", "http://b.com"] } }

/-- strconv.Atoi, modelled from the Go standard library contract: an optional
single sign followed by at least one decimal digit, value within the 64-bit
signed range; every other string (or an out-of-range value) is an error,
modelled as none. -/
def Atoi (s : String) : Option Int :=
  let chars := s.toList
  let signDigits : Int × List Char :=
    match chars with
    | '+' :: rest => (1, rest)
    | '-' :: rest => (-1, rest)
    | _ => (1, chars)
  let sign := signDigits.1
  let digits := signDigits.2
  if digits = [] then none
  else if digits.all Char.isDigit then
    let n : Nat := digits.foldl (fun acc c => acc * 10 + (c.toNat - 48)) 0
    let v : Int := sign * (n : Int)
    if -(2 ^ 63) ≤ v ∧ v ≤ 2 ^ 63 - 1 then some v else none
  else none

/-- strconv.ParseBool, modelled from the Go standard library contract: the
twelve accepted tokens, anything else is an error, modelled as none. -/
def ParseBool (s : String) : Option Bool :=
  if s = "1" ∨ s = "t" ∨ s = "T" ∨ s = "TRUE" ∨ s = "true" ∨ s = "True" then some true
  else if s = "0" ∨ s = "f" ∨ s = "F" ∨ s = "FALSE" ∨ s = "false" ∨ s = "False" then some false
  else none

/-- unicode.IsSpace as used by strings.TrimSpace, modelled from the Go
standard library for the Latin-1 range, which covers every input the loaders
see: tab, newline, vertical tab, form feed, carriage return, space, NEL and
no-break space. -/
def goIsSpace (c : Char) : Bool :=
  c.toNat = 9 ∨ c.toNat = 10 ∨ c.toNat = 11 ∨ c.toNat = 12 ∨ c.toNat = 13 ∨
    c.toNat = 32 ∨ c.toNat = 133 ∨ c.toNat = 160

/-- strings.TrimSpace, modelled from the Go standard library: drop leading and
trailing white space. -/
def trimSpace (s : String) : String :=
  String.mk (((s.toList.dropWhile goIsSpace).reverse.dropWhile goIsSpace).reverse)

/-- Failure modes of godotenv.Read, the external .env reader: the .env file
may be absent, or reading it may fail for another I/O reason. -/
inductive ReadErr where
  | notExist
  | ioError (msg : String)
deriving DecidableEq, Repr

/-- The PORT block of LoadEnvConfig (config.go): when the key exists and is
non-empty and strconv.Atoi accepts it, overwrite Port; otherwise leave the
config untouched. -/
def applyPortEnv (envVars : List (String × String)) (config : Config) : Config :=
  match envVars.lookup "PORT" with
  | some portStr =>
    if portStr ≠ "" then
      match Atoi portStr with
      | some port => { config with Server := { config.Server with Port := port } }
      | none => config
    else config
  | none => config

/-- The ALLOWED_ORIGINS block of LoadEnvConfig (config.go): split on commas
and trim each element. -/
def applyOriginsEnv (envVars : List (String × String)) (config : Config) : Config :=
  match envVars.lookup "ALLOWED_ORIGINS" with
  | some originsStr =>
    if originsStr ≠ "" then
      { config with Server :=
        { config.Server with AllowedOrigins := (originsStr.splitOn ",").map trimSpace } }
    else config
  | none => config

/-- The ENABLE_LOGGING block of LoadEnvConfig (config.go): when the key exists
and is non-empty and strconv.ParseBool accepts it, overwrite EnableLogging. -/
def applyLoggingEnv (envVars : List (String × String)) (config : Config) : Config :=
  match envVars.lookup "ENABLE_LOGGING" with
  | some loggingStr =>
    if loggingStr ≠ "" then
      match ParseBool loggingStr with
      | some logging => { config with Server := { config.Server with EnableLogging := logging } }
      | none => config
    else config
  | none => config

/-- LoadEnvConfig from config.go, parameterized over the outcome of the
external godotenv.Read call. On ANY read error the source returns
(GetDefaultConfig(), nil); on success it starts from the default config and
applies the three recognized keys in order. The error component of the Go
(Config, error) pair is the Except error; the source never produces it. -/
def LoadEnvConfig (readResult : Except ReadErr (List (String × String))) :
    Except String Config :=
  match readResult with
  | Except.error _ => Except.ok GetDefaultConfig
  | Except.ok envVars =>
      Except.ok (applyLoggingEnv envVars (applyOriginsEnv envVars (applyPortEnv envVars GetDefaultConfig)))

/-- Environment with malformed values for both recognized scalar keys, as in
the spec scenario PORT=not_a_number. -/
def demoEnv : List (String × String) :=
  [("PORT", "not_a_number"), ("ENABLE_LOGGING", "not_a_bool")]

/-- Parsed JSON document, the input to unmarshalling. Object fields keep file
order, as goccy/go-json delivers keys in document order; numbers are modelled
as integers, the only numeric values the Config shape holds. -/
inductive Json where
  | null
  | bool (b : Bool)
  | num (n : Int)
  | str (s : String)
  | arr (elems : List Json)
  | obj (fields : List (String × Json))

/-- Go zero value of ServerConfig. -/
def zeroServerConfig : ServerConfig :=
  { Port := 0
    ShutdownTimeout := 0
    ReadTimeout := 0
    WriteTimeout := 0
    AllowedOrigins := []
    AllowedMethods := []
    EnableLogging := false }

/-- ASCII lower-casing of one character, the case fold goccy/go-json (like
encoding/json) applies when matching object keys to struct fields. -/
def asciiLower (c : Char) : Char :=
  if 'A' ≤ c ∧ c ≤ 'Z' then Char.ofNat (c.toNat + 32) else c

/-- Key matching of goccy/go-json, modelled from the encoding/json contract:
a key selects a struct field when it equals the field's effective name (json
tag when present, Go field name otherwise), preferring an exact match but also
accepting an ASCII case-insensitive one. All effective names of ServerConfig
are distinct after folding, so folded equality decides the match. -/
def foldEq (a b : String) : Bool :=
  a.toList.map asciiLower == b.toList.map asciiLower

/-- Decode a JSON array into a Go []string; any non-string element is a type
error. -/
def decodeStringArray : List Json → Except String (List String)
  | [] => Except.ok []
  | Json.str s :: rest => (decodeStringArray rest).map (fun l => s :: l)
  | _ :: _ => Except.error "cannot unmarshal into string"

/-- Assign one JSON object entry to its ServerConfig field, per the
encoding/json-compatible contract of goccy/go-json: tagged fields match their
tags (port, allowed_origins, enable_logging), untagged fields match their Go
field names (ShutdownTimeout, ReadTimeout, WriteTimeout, AllowedMethods); a
JSON null leaves a scalar untouched and sets a slice to nil; unknown keys are
ignored; a type mismatch is an error. -/
def decodeServerField (c : ServerConfig) (key : String) (v : Json) :
    Except String ServerConfig :=
  if foldEq key "port" then
    match v with
    | Json.null => Except.ok c
    | Json.num n => Except.ok { c with Port := n }
    | _ => Except.error "cannot unmarshal into int"
  else if foldEq key "ShutdownTimeout" then
    match v with
    | Json.null => Except.ok c
    | Json.num n => Except.ok { c with ShutdownTimeout := n }
    | _ => Except.error "cannot unmarshal into int"
  else if foldEq key "ReadTimeout" then
    match v with
    | Json.null => Except.ok c
    | Json.num n => Except.ok { c with ReadTimeout := n }
    | _ => Except.error "cannot unmarshal into int"
  else if foldEq key "WriteTimeout" then
    match v with
    | Json.null => Except.ok c
    | Json.num n => Except.ok { c with WriteTimeout := n }
    | _ => Except.error "cannot unmarshal into int"
  else if foldEq key "allowed_origins" then
    match v with
    | Json.null => Except.ok { c with AllowedOrigins := [] }
    | Json.arr xs => (decodeStringArray xs).map (fun l => { c with AllowedOrigins := l })
    | _ => Except.error "cannot unmarshal into slice"
  else if foldEq key "AllowedMethods" then
    match v with
    | Json.null => Except.ok { c with AllowedMethods := [] }
    | Json.arr xs => (decodeStringArray xs).map (fun l => { c with AllowedMethods := l })
    | _ => Except.error "cannot unmarshal into slice"
  else if foldEq key "enable_logging" then
    match v with
    | Json.null => Except.ok c
    | Json.bool b => Except.ok { c with EnableLogging := b }
    | _ => Except.error "cannot unmarshal into bool"
  else Except.ok c

/-- Unmarshal a JSON value into an existing ServerConfig, folding the object
entries left to right so later duplicate keys overwrite earlier ones. -/
def unmarshalServerInto (init : ServerConfig) : Json → Except String ServerConfig
  | Json.null => Except.ok init
  | Json.obj kvs => kvs.foldlM (fun c kv => decodeServerField c kv.1 kv.2) init
  | _ => Except.error "cannot unmarshal into ServerConfig"

/-- Assign one top-level JSON object entry to Config: only the tagged field
Server (key server) exists; unknown keys are ignored. -/
def decodeConfigField (c : Config) (key : String) (v : Json) : Except String Config :=
  if foldEq key "server" then
    (unmarshalServerInto c.Server v).map (fun s => { c with Server := s })
  else Except.ok c

/-- json.Unmarshal of a parsed document into a fresh zero Config, per the
coccy/go-json contract (100 percent encoding/json compatible). -/
def unmarshalConfig (j : Json) : Except String Config :=
  match j with
  | Json.null => Except.ok { Server := zeroServerConfig }
  | Json.obj kvs => kvs.foldlM (fun c kv => decodeConfigField c kv.1 kv.2) { Server := zeroServerConfig }
  | _ => Except.error "cannot unmarshal into Config"

/-- Observable state of the configuration file, the outcomes of the external
os.Stat, os.ReadFile and JSON parse steps LoadConfig performs: absent,
unreadable, readable with well-formed content (its parsed document), or
readable with malformed content. -/
inductive FileState where
  | notExist
  | readFailure (msg : String)
  | contentJson (j : Json)
  | contentMalformed

/-- LoadConfig from config.go over the observable file state: error when the
file is absent, unreadable or unparsable, otherwise the unmarshalled Config
(a type mismatch during unmarshalling surfaces as the same parse error). -/
def LoadConfig : FileState → Except String Config
  | FileState.notExist => Except.error "config file does not exist"
  | FileState.readFailure m => Except.error ("failed to read config file: " ++ m)
  | FileState.contentMalformed => Except.error "failed to parse JSON config"
  | FileState.contentJson j =>
    match unmarshalConfig j with
    | Except.ok c => Except.ok c
    | Except.error e => Except.error ("failed to parse JSON config: " ++ e)

/-- loadConfiguration from main.go: start from the defaults; when CONFIG_PATH
is set (os.Getenv returns a non-empty string) try the file loader, merging on
success and only logging a warning on failure; then load the environment
config, propagating its error, and merge it on top. -/
def loadConfiguration (configPath : String) (fileState : FileState)
    (envRead : Except ReadErr (List (String × String))) : Except String Config :=
  let cfg := GetDefaultConfig
  let cfg := if configPath ≠ "" then
      match LoadConfig fileState with
      | Except.ok jsonCfg => MergeConfigs (some cfg) (some jsonCfg)
      | Except.error _ => cfg
    else cfg
  match LoadEnvConfig envRead with
  | Except.error e => Except.error ("failed to load environment configuration: " ++ e)
  | Except.ok envCfg => Except.ok (MergeConfigs (some cfg) (some envCfg))

/-- The first event startServerWithGracefulShutdown observes after the server
goroutine starts: either ListenAndServe fails with a fatal error (anything but
ErrServerClosed), or a SIGINT/SIGTERM arrives and server.Shutdown is run,
whose result (nil or an error) is recorded. Errors are their Go messages. -/
inductive RaceEvent where
  | serverError (e : String)
  | signalShutdown (shutdownErr : Option String)
deriving DecidableEq, Repr

/-- The message of context.DeadlineExceeded. -/
def contextDeadlineExceeded : String := "context deadline exceeded"

/-- Modelled from the net/http contract (external to this repository):
server.Shutdown returns the context's error, context.DeadlineExceeded, when
the shutdown deadline elapses before in-flight connections drain, forcibly
closing what remains; it returns nil when the drain finishes in time. -/
def shutdownErrWhenDeadlineElapses : Option String := some contextDeadlineExceeded

/-- startServerWithGracefulShutdown from main.go, over the observed race
event: a fatal server error is returned wrapped; on a signal, a non-nil
Shutdown error is logged and returned wrapped, and a nil one yields a nil
return after the success log line. -/
def startServerWithGracefulShutdown : RaceEvent → Option String
  | RaceEvent.serverError e => some ("server failed to start: " ++ e)
  | RaceEvent.signalShutdown (some e) => some ("graceful shutdown failed: " ++ e)
  | RaceEvent.signalShutdown none => none

/-- The exit status of main as a function of the race event, given that
configuration loading succeeded: a non-nil result from
startServerWithGracefulShutdown reaches log.Fatalf, which calls os.Exit(1);
a nil result falls off main and the process exits 0. -/
def mainExitCode (ev : RaceEvent) : Nat :=
  match startServerWithGracefulShutdown ev with
  | some _ => 1
  | none => 0

theorem applyOriginsEnv_port (env : List (String × String)) (cfg : Config) :
    (applyOriginsEnv env cfg).Server.Port = cfg.Server.Port := by
  unfold applyOriginsEnv
  split <;> [skip; rfl]
  split <;> rfl

theorem applyLoggingEnv_port (env : List (String × String)) (cfg : Config) :
    (applyLoggingEnv env cfg).Server.Port = cfg.Server.Port := by
  unfold applyLoggingEnv
  split <;> [skip; rfl]
  split <;> [skip; rfl]
  split <;> rfl

theorem applyPortEnv_logging (env : List (String × String)) (cfg : Config) :
    (applyPortEnv env cfg).Server.EnableLogging = cfg.Server.EnableLogging := by
  unfold applyPortEnv
  split <;> [skip; rfl]
  split <;> [skip; rfl]
  split <;> rfl

theorem applyOriginsEnv_logging (env : List (String × String)) (cfg : Config) :
    (applyOriginsEnv env cfg).Server.EnableLogging = cfg.Server.EnableLogging := by
  unfold applyOriginsEnv
  split <;> [skip; rfl]
  split <;> rfl

theorem applyPortEnv_malformed (env : List (String × String)) (cfg : Config) (s : String)
    (hs : env.lookup "PORT" = some s) (ha : Atoi s = none) :
    applyPortEnv env cfg = cfg := by
  unfold applyPortEnv
  rw [hs]
  by_cases h : s = "" <;> simp [h, ha]

theorem applyLoggingEnv_malformed (env : List (String × String)) (cfg : Config) (s : String)
    (hs : env.lookup "ENABLE_LOGGING" = some s) (hb : ParseBool s = none) :
    applyLoggingEnv env cfg = cfg := by
  unfold applyLoggingEnv
  rw [hs]
  by_cases h : s = "" <;> simp [h, hb]

/-- Claim C1: for every pair of non-nil Configs base and override, the merge
result keeps ShutdownTimeout, ReadTimeout, WriteTimeout and AllowedMethods
exactly equal to the base operand's values, whatever the override holds. -/
theorem merge_hardcoded_fields_from_base (b o : Config) :
    (MergeConfigs (some b) (some o)).Server.ShutdownTimeout = b.Server.ShutdownTimeout ∧
    (MergeConfigs (some b) (some o)).Server.ReadTimeout = b.Server.ReadTimeout ∧
    (MergeConfigs (some b) (some o)).Server.WriteTimeout = b.Server.WriteTimeout ∧
    (MergeConfigs (some b) (some o)).Server.AllowedMethods = b.Server.AllowedMethods :=
  ⟨rfl, rfl, rfl, rfl⟩

/-- Claim C5: for non-nil base and override, a zero override Port leaves the
base Port in place, and a non-zero override Port wins. -/
theorem merge_port_rule (b o : Config) :
    (o.Server.Port = 0 → (MergeConfigs (some b) (some o)).Server.Port = b.Server.Port) ∧
    (o.Server.Port ≠ 0 → (MergeConfigs (some b) (some o)).Server.Port = o.Server.Port) := by
  constructor <;> intro h <;> simp [MergeConfigs, h]

/-- Witness for merge_port_rule at concrete configurations. -/
theorem merge_port_rule_witness :
    (MergeConfigs (some GetDefaultConfig) (some zeroValueConfig)).Server.Port
        = GetDefaultConfig.Server.Port ∧
    (MergeConfigs (some GetDefaultConfig) (some overridePort3000)).Server.Port
        = overridePort3000.Server.Port :=
  ⟨(merge_port_rule GetDefaultConfig zeroValueConfig).1 rfl,
   (merge_port_rule GetDefaultConfig overridePort3000).2 (by decide)⟩

/-- Claim C6: for non-nil base and override, a non-empty override
AllowedOrigins replaces the base list exactly (element-wise, order kept), and
an empty override list leaves the base list exactly. -/
theorem merge_allowedOrigins_rule (b o : Config) :
    (o.Server.AllowedOrigins ≠ [] →
      (MergeConfigs (some b) (some o)).Server.AllowedOrigins = o.Server.AllowedOrigins) ∧
    (o.Server.AllowedOrigins = [] →
      (MergeConfigs (some b) (some o)).Server.AllowedOrigins = b.Server.AllowedOrigins) := by
  constructor <;> intro h <;> simp [MergeConfigs, h, List.length_pos]

/-- Witness for merge_allowedOrigins_rule at concrete configurations. -/
theorem merge_allowedOrigins_rule_witness :
    (MergeConfigs (some GetDefaultConfig) (some overrideOrigins)).Server.AllowedOrigins
        = overrideOrigins.Server.AllowedOrigins ∧
    (MergeConfigs (some GetDefaultConfig) (some zeroValueConfig)).Server.AllowedOrigins
        = GetDefaultConfig.Server.AllowedOrigins :=
  ⟨(merge_allowedOrigins_rule GetDefaultConfig overrideOrigins).1 (by decide),
   (merge_allowedOrigins_rule GetDefaultConfig zeroValueConfig).2 rfl⟩

/-- Claim C7: for every pair of non-nil Configs the merge takes the override's
EnableLogging verbatim; merging a true base with a zero-valued (false) override
yields false. -/
theorem merge_enableLogging_override (b o : Config) :
    (MergeConfigs (some b) (some o)).Server.EnableLogging = o.Server.EnableLogging :=
  rfl

/-- Claim C9: MergeConfigs is associative over non-nil Configs, so applying
the two-argument merge twice realizes the env-over-file-over-default
three-tier precedence. -/
theorem mergeConfigs_assoc (a b c : Config) :
    MergeConfigs (some (MergeConfigs (some a) (some b))) (some c)
      = MergeConfigs (some a) (some (MergeConfigs (some b) (some c))) := by
  simp only [MergeConfigs, Config.mk.injEq, ServerConfig.mk.injEq]
  split_ifs <;> simp_all

/-- Claim C10: MergeConfigs is idempotent, every field of MergeConfigs(c, c)
equals the corresponding field of c. -/
theorem mergeConfigs_idem (c : Config) : MergeConfigs (some c) (some c) = c := by
  simp [MergeConfigs]

/-- Claim C2 counterexample: when the drain deadline elapses
(server.Shutdown returns context.DeadlineExceeded), main does NOT exit with
status zero — log.Fatalf makes it exit 1. -/
theorem drainTimeout_exit_zero_counterexample :
    mainExitCode (RaceEvent.signalShutdown shutdownErrWhenDeadlineElapses) ≠ 0 := by
  decide

/-- Claim C2 amended: an elapsed drain deadline is treated as fatal: the
Shutdown error is wrapped as a graceful-shutdown failure and returned, and
main exits with status 1; only a drain that finishes within the deadline
exits with status zero. -/
theorem drainTimeout_fatal_result :
    startServerWithGracefulShutdown (RaceEvent.signalShutdown shutdownErrWhenDeadlineElapses)
        = some ("graceful shutdown failed: " ++ contextDeadlineExceeded) ∧
    mainExitCode (RaceEvent.signalShutdown shutdownErrWhenDeadlineElapses) = 1 ∧
    mainExitCode (RaceEvent.signalShutdown none) = 0 :=
  ⟨rfl, rfl, rfl⟩

/-- Claim C3 counterexample: when reading the .env file fails for a reason
OTHER than non-existence, the load does not fail as the claim requires — it
succeeds and returns the default configuration. -/
theorem loadEnvConfig_io_error_counterexample :
    LoadEnvConfig (Except.error (ReadErr.ioError "permission denied"))
      = Except.ok GetDefaultConfig :=
  rfl

/-- Claim C3 amended: LoadEnvConfig never returns an error — every failure of
the .env read, non-existence or any other I/O error, is downgraded to
returning the default configuration — and consequently loadConfiguration
never fails either, so startup is never aborted by the environment loader. -/
theorem loadEnvConfig_never_fails :
    (∀ r, ∃ c, LoadEnvConfig r = Except.ok c) ∧
    (∀ p fs r, ∃ c, loadConfiguration p fs r = Except.ok c) := by
  constructor
  · intro r
    cases r with
    | error e => exact ⟨GetDefaultConfig, rfl⟩
    | ok env => exact ⟨_, rfl⟩
  · intro p fs r
    unfold loadConfiguration
    cases r with
    | error e => exact ⟨_, rfl⟩
    | ok env => exact ⟨_, rfl⟩

/-- Claim C4 (code bug): evaluation of the file loader at the failing input.
A parsed file with content server.ShutdownTimeout = 99 yields a Config whose
ShutdownTimeout is 99, taken from the file — the untagged Go field is still
matched by its field name — while the legacy snake_case key
shutdown_timeout_seconds is ignored and leaves the zero value. -/
theorem loadConfig_untagged_timeout_read_from_file :
    LoadConfig (FileState.contentJson
        (Json.obj [("server", Json.obj [("ShutdownTimeout", Json.num 99)])]))
      = Except.ok { Server := { zeroServerConfig with ShutdownTimeout := 99 } } ∧
    LoadConfig (FileState.contentJson
        (Json.obj [("server", Json.obj [("shutdown_timeout_seconds", Json.num 45)])]))
      = Except.ok { Server := zeroServerConfig } := by
  constructor <;> rfl

/-- Claim C8: over any successfully read environment, the loader succeeds,
and a malformed PORT (rejected by strconv.Atoi) leaves Port at the default
provider's 8080, while a malformed ENABLE_LOGGING (rejected by
strconv.ParseBool) leaves EnableLogging at the default true. -/
theorem loadEnvConfig_malformed_keeps_base (env : List (String × String)) :
    ∃ c, LoadEnvConfig (Except.ok env) = Except.ok c ∧
      (∀ s, env.lookup "PORT" = some s → Atoi s = none → c.Server.Port = 8080) ∧
      (∀ s, env.lookup "ENABLE_LOGGING" = some s → ParseBool s = none →
        c.Server.EnableLogging = true) := by
  refine ⟨_, rfl, ?_, ?_⟩
  · intro s hs ha
    rw [applyLoggingEnv_port, applyOriginsEnv_port, applyPortEnv_malformed env _ s hs ha]
    rfl
  · intro s hs hb
    rw [applyLoggingEnv_malformed env _ s hs hb, applyOriginsEnv_logging, applyPortEnv_logging]
    rfl

/-- Witness for loadEnvConfig_malformed_keeps_base on the spec's scenario:
PORT=not_a_number (with a malformed ENABLE_LOGGING as well) yields Port 8080
and EnableLogging true, with no error. -/
theorem loadEnvConfig_malformed_keeps_base_witness :
    ∃ c, LoadEnvConfig (Except.ok demoEnv) = Except.ok c ∧
      c.Server.Port = 8080 ∧ c.Server.EnableLogging = true := by
  obtain ⟨c, hc, hp, hl⟩ := loadEnvConfig_malformed_keeps_base demoEnv
  exact ⟨c, hc, hp "not_a_number" rfl rfl, hl "not_a_bool" rfl rfl⟩

end PhantomServer
